import Mathlib

/-
Verification of the query-answering core of the synapse backend:
intent classification (app/services/intent_service.py), hybrid search
(app/services/search_service.py) and the map-reduce orchestrator
(app/services/mapreduce_service.py).

Modelling conventions:
* Python floats are embedded as rationals (ℚ).  The float literals used by
  the code (1.5, 1.2, 0.75, 0.1, 0.35, 0.3, 0.7) are written as exact
  rationals; for the comparisons the code performs against integers
  (10 * 1.5 = 15.0 and 10 * 1.2 = 12.0) the binary floating point values
  are exact, so the comparisons coincide.
* math.log and math.sqrt are transcendental; they are abstracted as
  function parameters (logFn, sqrtFn) of the corresponding definitions.
* Python dicts are embedded as insertion-ordered association lists, and
  list.sort(key=..., reverse=True) as a stable descending insertion sort.
-/

namespace Synapse

/-! ### Stable descending sort, modelling Python list.sort(key=..., reverse=True) -/

/-- Insert an element into a descending-sorted list, before the first element
whose key is not larger.  Used to model Python's stable descending sort. -/
def insertDesc (key : α → ℚ) (a : α) : List α → List α
  | [] => [a]
  | b :: rest => if key b ≤ key a then a :: b :: rest else b :: insertDesc key a rest

/-- Stable descending sort by a rational key: the unique output that is sorted
by decreasing key and keeps the original order of equal-key elements, which is
what Python's list.sort(key=..., reverse=True) produces. -/
def stableSortDesc (key : α → ℚ) : List α → List α
  | [] => []
  | a :: rest => insertDesc key a (stableSortDesc key rest)

/-! ### Substring containment, modelling the Python `in` operator on strings -/

/-- Boolean prefix test on character lists. -/
def isPrefixChars : List Char → List Char → Bool
  | [], _ => true
  | _ :: _, [] => false
  | a :: as, b :: bs => a == b && isPrefixChars as bs

/-- Boolean substring test on character lists: the needle occurs contiguously
in the haystack. -/
def hasSubChars (needle : List Char) : List Char → Bool
  | [] => needle.isEmpty
  | c :: rest => isPrefixChars needle (c :: rest) || hasSubChars needle rest

/-- Models the Python expression `needle in hay` on strings. -/
def strContains (hay needle : String) : Bool :=
  hasSubChars needle.toList hay.toList

/-! ### Tokenizer (SearchService._tokenize) -/

/-- Models str.lower() character by character (the queries and documents
handled here are ASCII). -/
def strLower (s : String) : String := String.mk (s.toList.map Char.toLower)

/-- Models the regex class `\w` for ASCII text: letters, digits, underscore. -/
def isWordChar (c : Char) : Bool := c.isAlphanum || c == '_'

/-- Models `re.sub(r'[^\w\s]', ' ', text)` on one character. -/
def cleanChar (c : Char) : Char :=
  if isWordChar c || c.isWhitespace then c else ' '

/-- One step of splitting on whitespace: a whitespace character starts a new
piece, any other character extends the current piece. -/
def wsSplitStep (c : Char) (acc : List (List Char)) : List (List Char) :=
  if c.isWhitespace then [] :: acc
  else
    match acc with
    | [] => [[c]]
    | t :: ts => (c :: t) :: ts

/-- The whitespace-separated pieces of a character list.  Pieces can be
empty where Python's str.split() drops them, but the tokenizer's length
filter discards those anyway. -/
def wsPieces (cs : List Char) : List (List Char) := cs.foldr wsSplitStep [[]]

/-- SearchService._tokenize: lowercase, replace punctuation by spaces, split
on whitespace, keep only tokens longer than 2 characters. -/
def tokenize (text : String) : List String :=
  let cleaned := (strLower text).toList.map cleanChar
  ((wsPieces cleaned).map String.mk).filter (fun t => t.length > 2)

/-! ### Data model for items and chunks -/

/-- A vector chunk of a knowledge item (rows of the Vector table).  The
embedding is absent (None) or a list of rationals; the empty list models an
empty stored vector. -/
structure Chunk where
  chunkIndex : ℕ
  embedding : Option (List ℚ)
  contentPreview : String
deriving DecidableEq

/-- An item together with its chunks, as assembled by
MapReduceService._fetch_items_with_chunks. -/
structure ItemData where
  itemId : ℕ
  title : String
  chunks : List Chunk
deriving DecidableEq

/-- Number of chunks of an item (len(item_data["chunks"])). -/
def chunkCount (it : ItemData) : ℕ := it.chunks.length

/-- Total chunk count of a batch. -/
def batchChunks (b : List ItemData) : ℕ := (b.map chunkCount).sum

/-- MapReduceService.TARGET_CHUNKS_PER_BATCH. -/
def TARGET_CHUNKS_PER_BATCH : ℕ := 10

/-! ### Batching (MapReduceService._create_smart_batches) -/

/-- The loop of _create_smart_batches: `cur` is the current batch being
accumulated and `curCount` its chunk count.  An item whose own chunk count
exceeds 1.5 times the target gets a singleton batch; otherwise a new batch is
started whenever adding the item would push the count above 1.2 times the
target. -/
def createSmartBatchesGo (cur : List ItemData) (curCount : ℕ) :
    List ItemData → List (List ItemData)
  | [] => if cur.isEmpty then [] else [cur]
  | it :: rest =>
    let c := chunkCount it
    if (c : ℚ) > (TARGET_CHUNKS_PER_BATCH : ℚ) * (3 / 2) then
      (if cur.isEmpty then [] else [cur]) ++ [it] :: createSmartBatchesGo [] 0 rest
    else if ((curCount : ℚ) + (c : ℚ) > (TARGET_CHUNKS_PER_BATCH : ℚ) * (6 / 5)) then
      (if cur.isEmpty then [] else [cur]) ++ createSmartBatchesGo [it] c rest
    else
      createSmartBatchesGo (cur ++ [it]) (curCount + c) rest

/-- MapReduceService._create_smart_batches. -/
def createSmartBatches (items : List ItemData) : List (List ItemData) :=
  createSmartBatchesGo [] 0 items

/-! ### Intent classifier (IntentClassifier) -/

/-- The fields of an intent plan that the verified claims are about. -/
structure IntentPlan where
  intentType : String
  confidence : ℚ
  requiresFullScan : Bool
  requiresAsync : Bool
  estimatedItems : ℕ
  estimatedTimeSeconds : ℚ
deriving DecidableEq

/-- IntentClassifier.QUICK_QUERY_THRESHOLD_SECONDS. -/
def QUICK_QUERY_THRESHOLD_SECONDS : ℚ := 5

/-- IntentClassifier.ITEMS_PER_SECOND_ESTIMATE. -/
def ITEMS_PER_SECOND_ESTIMATE : ℚ := 10

/-- IntentClassifier._validate_and_enrich_intent.  The inputs are the fields
of the LLM's JSON answer the function reads (intent type, confidence and
requires_full_scan after the setdefault calls, and whether
filter_criteria.semantic_filter is a truthy string), plus the values of
folder_item_counts (an absent or empty dict both yield total 0, so a plain
list of counts suffices).  `int(total_items * 0.35)` is embedded as the floor
of the exact product with 35/100; int() truncates toward zero, which is the
floor for these non-negative values. -/
def validateAndEnrich (intentType : String) (confidence : ℚ)
    (requiresFullScan : Bool) (hasSemanticFilter : Bool)
    (folderItemCounts : List ℕ) : IntentPlan :=
  let totalItems : ℕ := folderItemCounts.sum
  let estimatedItems : ℕ :=
    if intentType = "quick_qa" then 10
    else if hasSemanticFilter then Int.toNat ⌊(totalItems : ℚ) * (35 / 100)⌋
    else totalItems
  let baseTime : ℚ := 1
  let mapTime : ℚ := (estimatedItems : ℚ) / ITEMS_PER_SECOND_ESTIMATE
  let reduceTime : ℚ := if estimatedItems > 50 then 2 else 1
  let estimatedTime : ℚ := baseTime + mapTime + reduceTime
  { intentType := intentType
    confidence := confidence
    requiresFullScan := requiresFullScan
    requiresAsync := estimatedTime > QUICK_QUERY_THRESHOLD_SECONDS
    estimatedItems := estimatedItems
    estimatedTimeSeconds := estimatedTime }

/-- The aggregation keyword list of IntentClassifier._get_default_intent. -/
def aggregationKeywords : List String :=
  ["total", "sum", "count", "how many", "average", "all"]

/-- The summary keyword list of IntentClassifier._get_default_intent. -/
def summaryKeywords : List String :=
  ["summarize", "overview", "summary", "tell me about"]

/-- The keyword dispatch of IntentClassifier._get_default_intent: intent type
and requires_full_scan from substring tests on the lowercased query. -/
def defaultIntentType (userQuery : String) : String × Bool :=
  let queryLower := strLower userQuery
  if aggregationKeywords.any (fun kw => strContains queryLower kw) then
    ("aggregation", true)
  else if summaryKeywords.any (fun kw => strContains queryLower kw) then
    ("full_folder_summary", true)
  else
    ("quick_qa", false)

/-- IntentClassifier._get_default_intent.  folder_item_counts is None or a
dict of per-folder counts; `sum(...) if folder_item_counts else 10` treats
None and the empty dict alike, so the values list is enough. -/
def getDefaultIntent (userQuery : String) (folderItemCounts : List ℕ) :
    IntentPlan :=
  let dispatch := defaultIntentType userQuery
  let totalItems : ℕ :=
    if folderItemCounts.isEmpty then 10 else folderItemCounts.sum
  let estimatedItems : ℕ := if dispatch.2 then totalItems else 10
  let estimatedTime : ℚ := 1 + (estimatedItems : ℚ) / ITEMS_PER_SECOND_ESTIMATE
  { intentType := dispatch.1
    confidence := 3 / 10
    requiresFullScan := dispatch.2
    requiresAsync := estimatedTime > QUICK_QUERY_THRESHOLD_SECONDS
    estimatedItems := estimatedItems
    estimatedTimeSeconds := estimatedTime }

/-- Modelled from the spec: the keyword table exactly as the specification
states it — aggregation keywords "total", "sum", "count", "how many",
"average", "all"; summary keywords "summarize", "overview", "tell me about";
otherwise quick_qa.  Used to compare the spec's table with the code's. -/
def specKeywordIntentType (userQuery : String) : String :=
  let queryLower := strLower userQuery
  if ["total", "sum", "count", "how many", "average", "all"].any
      (fun kw => strContains queryLower kw) then
    "aggregation"
  else if ["summarize", "overview", "tell me about"].any
      (fun kw => strContains queryLower kw) then
    "full_folder_summary"
  else
    "quick_qa"

/-! ### Map results and programmatic aggregation
(MapReduceService._calculate_aggregation) -/

/-- One entry of a map result's extracted_data.  Option models an absent JSON
field (`item.get(...)`). -/
structure ExtractedItem where
  source : Option String
  value : Option ℚ
  unit : Option String
  date : Option String
  category : Option String
deriving DecidableEq

/-- A map result dict.  Absent fields are modelled by the falsy defaults the
code's .get calls produce: empty lists, zero, None. -/
structure MapResult where
  relevant : Bool
  extractedData : List ExtractedItem
  themes : List String
  keyPoints : List String
  summary : String
  itemCount : ℕ
  batchIndex : ℕ
  itemsInBatch : ℕ
  error : Option String
deriving DecidableEq

/-- An entry of the aggregation's items_list. -/
structure ItemEntry where
  source : Option String
  value : ℚ
  unit : Option String
  date : Option String
  category : String
deriving DecidableEq

/-- Insertion-ordered dict update used for by_category and by_month: create
the (count, total) entry at (0, 0) when the key is new, then add 1 to the
count and the value to the total. -/
def dictUpsert : List (String × ℕ × ℚ) → String → ℚ → List (String × ℕ × ℚ)
  | [], k, v => [(k, 1, v)]
  | e :: rest, k, v =>
    if e.1 = k then (e.1, e.2.1 + 1, e.2.2 + v) :: rest
    else e :: dictUpsert rest k v

/-- Dict lookup in the association-list embedding. -/
def dictFind : List (String × ℕ × ℚ) → String → Option (ℕ × ℚ)
  | [], _ => none
  | e :: rest, k => if e.1 = k then some e.2 else dictFind rest k

/-- The running state of the aggregation loop of _calculate_aggregation. -/
structure AggAcc where
  total : ℚ
  count : ℕ
  byCategory : List (String × ℕ × ℚ)
  byMonth : List (String × ℕ × ℚ)
  itemsList : List ItemEntry
deriving DecidableEq

/-- The initial aggregation state. -/
def emptyAggAcc : AggAcc := ⟨0, 0, [], [], []⟩

/-- One iteration of the aggregation loop: value defaults to 0, category to
"uncategorized"; by_month is only touched when the date string is truthy, and
uses its first seven characters (YYYY-MM) as key. -/
def aggStep (acc : AggAcc) (item : ExtractedItem) : AggAcc :=
  let value := item.value.getD 0
  let category := item.category.getD "uncategorized"
  { total := acc.total + value
    count := acc.count + 1
    byCategory := dictUpsert acc.byCategory category value
    byMonth :=
      match item.date with
      | some d => if d.isEmpty then acc.byMonth else
          dictUpsert acc.byMonth (d.take 7) value
      | none => acc.byMonth
    itemsList := acc.itemsList ++
      [⟨item.source, value, item.unit, item.date, category⟩] }

/-- The aggregation loop over a list of extracted entries. -/
def aggFold (es : List ExtractedItem) : AggAcc := es.foldl aggStep emptyAggAcc

/-- Collection of all extracted_data across map results: a result contributes
only when relevant is truthy and extracted_data is a non-empty list. -/
def allExtracted (mapResults : List MapResult) : List ExtractedItem :=
  mapResults.flatMap fun r =>
    if r.relevant && !r.extractedData.isEmpty then r.extractedData else []

/-- The dict returned by _calculate_aggregation for aggregation intents. -/
structure AggSummary where
  total : ℚ
  count : ℕ
  average : ℚ
  byCategory : List (String × ℕ × ℚ)
  byMonth : List (String × ℕ × ℚ)
  topItems : List ItemEntry
  allItems : List ItemEntry
deriving DecidableEq

/-- The dict returned by _calculate_aggregation for full_folder_summary.
list(set(all_themes)) has implementation-defined order; it is embedded as
duplicate removal keeping first occurrences. -/
structure SummaryAgg where
  themes : List String
  keyPoints : List String
  totalItems : ℕ
deriving DecidableEq

/-- The two shapes of dict _calculate_aggregation can return. -/
inductive AggOutput where
  | agg (s : AggSummary)
  | folderSummary (s : SummaryAgg)
deriving DecidableEq

/-- MapReduceService._calculate_aggregation. -/
def calculateAggregation (mapResults : List MapResult) (intentType : String) :
    AggOutput :=
  if intentType = "aggregation" ∨ intentType = "filtered_aggregation" then
    let acc := aggFold (allExtracted mapResults)
    let sortedItems := stableSortDesc (fun e => e.value) acc.itemsList
    .agg
      { total := acc.total
        count := acc.count
        average := if acc.count > 0 then acc.total / (acc.count : ℚ) else 0
        byCategory := acc.byCategory
        byMonth := acc.byMonth
        topItems := sortedItems.take 20
        allItems := sortedItems }
  else
    .folderSummary
      { themes :=
          (mapResults.flatMap fun r => if r.relevant then r.themes else []).eraseDups
        keyPoints :=
          mapResults.flatMap fun r => if r.relevant then r.keyPoints else []
        totalItems := (mapResults.map (fun r => r.itemCount)).sum }

/-- The "total" field of an aggregation output, when present. -/
def aggTotalField : AggOutput → Option ℚ
  | .agg s => some s.total
  | .folderSummary _ => none

/-- The "count" field of an aggregation output, when present. -/
def aggCountField : AggOutput → Option ℕ
  | .agg s => some s.count
  | .folderSummary _ => none

/-- Lookup in the "by_category" dict of an aggregation output. -/
def byCategoryLookup (o : AggOutput) (k : String) : Option (ℕ × ℚ) :=
  match o with
  | .agg s => dictFind s.byCategory k
  | .folderSummary _ => none

/-- Lookup in the "by_month" dict of an aggregation output. -/
def byMonthLookup (o : AggOutput) (k : String) : Option (ℕ × ℚ) :=
  match o with
  | .agg s => dictFind s.byMonth k
  | .folderSummary _ => none

/-- Models aggregation_summary.get("top_items", []). -/
def aggTopItems : AggOutput → List ItemEntry
  | .agg s => s.topItems
  | .folderSummary _ => []

/-- Models aggregation_summary.get("count", 0). -/
def aggCountOrZero : AggOutput → ℕ
  | .agg s => s.count
  | .folderSummary _ => 0

/-! ### Confidence (MapReduceService._calculate_confidence) -/

/-- Rounding to the nearest integer with ties to the even integer, which is
what Python's round() implements. -/
def roundHalfEven (x : ℚ) : ℤ :=
  let f := x - (⌊x⌋ : ℚ)
  if f < 1 / 2 then ⌊x⌋
  else if f > 1 / 2 then ⌊x⌋ + 1
  else if ⌊x⌋ % 2 = 0 then ⌊x⌋ else ⌊x⌋ + 1

/-- Models round(x, 2): round half to even at two decimal places. -/
def pyRound2 (x : ℚ) : ℚ := (roundHalfEven (x * 100) : ℚ) / 100

/-- MapReduceService._calculate_confidence. -/
def calculateConfidence (mapResults : List MapResult)
    (aggregationSummary : AggOutput) : ℚ :=
  let totalBatches := mapResults.length
  let failedBatches := (mapResults.filter (fun r => r.error.isSome)).length
  if failedBatches = totalBatches then 0
  else
    let confidence : ℚ := 1 - (failedBatches : ℚ) / (totalBatches : ℚ)
    let itemsFound := aggCountOrZero aggregationSummary
    let confidence := if itemsFound < 5 then confidence * (7 / 10) else confidence
    pyRound2 confidence

/-! ### Hybrid search scoring (SearchService) -/

/-- One scored entry of results_with_scores in SearchService.semantic_search:
one entry per chunk vector that passed the embedding check. -/
structure SearchResult where
  resultId : ℕ
  title : String
  content : String
  semanticScore : ℚ
deriving DecidableEq

/-- BM25 term-frequency saturation parameter (self.k1 = 1.2). -/
def bm25K1 : ℚ := 12 / 10

/-- BM25 length normalization parameter (self.b = 0.75). -/
def bm25B : ℚ := 3 / 4

/-- The document text used for BM25: title and content joined by a space. -/
def docText (r : SearchResult) : String := r.title ++ " " ++ r.content

/-- The BM25 token list of a result document. -/
def docTerms (r : SearchResult) : List String := tokenize (docText r)

/-- Average document length over the candidate set
(SearchService._calculate_corpus_stats). -/
def avgDocLength (results : List SearchResult) : ℚ :=
  if results.isEmpty then 0
  else ((results.map (fun r => ((docTerms r).length : ℚ))).sum) / (results.length : ℚ)

/-- Number of candidate documents containing a term
(SearchService._calculate_corpus_stats builds this dict from the unique terms
of each document). -/
def termDocFreq (results : List SearchResult) (term : String) : ℕ :=
  (results.filter (fun r => (docTerms r).contains term)).length

/-- Models term_document_frequencies.get(term, 1): a term absent from the
dict (contained in no document) defaults to 1. -/
def termDocFreqOrOne (results : List SearchResult) (term : String) : ℕ :=
  let df := termDocFreq results term
  if df = 0 then 1 else df

/-- SearchService._calculate_bm25_score.  math.log is abstracted as logFn. -/
def bm25Score (logFn : ℚ → ℚ) (queryTerms docTermList : List String)
    (docLength avgLen : ℚ) (corpusSize : ℕ) (dfOf : String → ℕ) : ℚ :=
  queryTerms.foldl
    (fun score term =>
      if docTermList.contains term then
        let tf : ℚ := (docTermList.count term : ℚ)
        let df : ℚ := (dfOf term : ℚ)
        let idf := logFn (((corpusSize : ℚ) - df + 1 / 2) / (df + 1 / 2))
        let numerator := tf * (bm25K1 + 1)
        let denominator :=
          tf + bm25K1 * (1 - bm25B + bm25B * (docLength / avgLen))
        score + idf * (numerator / denominator)
      else score)
    0

/-- The BM25 score _apply_hybrid_ranking computes for one result, with the
corpus statistics taken over the candidate set being ranked. -/
def bm25ScoreOf (logFn : ℚ → ℚ) (queryText : String)
    (results : List SearchResult) (r : SearchResult) : ℚ :=
  let dts := docTerms r
  bm25Score logFn (tokenize queryText) dts ((dts.length : ℕ) : ℚ)
    (avgDocLength results) results.length (termDocFreqOrOne results)

/-- max_semantic_score: running maximum starting at 0.0. -/
def maxSemanticScore (results : List SearchResult) : ℚ :=
  results.foldl (fun m r => max m r.semanticScore) 0

/-- max_bm25_score: running maximum starting at 0.0. -/
def maxBm25Score (logFn : ℚ → ℚ) (queryText : String)
    (results : List SearchResult) : ℚ :=
  results.foldl (fun m r => max m (bm25ScoreOf logFn queryText results r)) 0

/-- The hybrid score of one result: weighted sum of the max-normalized
semantic and BM25 scores, each normalized only when its maximum is
positive. -/
def hybridScore (logFn : ℚ → ℚ) (queryText : String)
    (results : List SearchResult) (semanticWeight bm25Weight : ℚ)
    (r : SearchResult) : ℚ :=
  let ms := maxSemanticScore results
  let mb := maxBm25Score logFn queryText results
  let normalizedSemantic := if ms > 0 then r.semanticScore / ms else 0
  let normalizedBm25 :=
    if mb > 0 then bm25ScoreOf logFn queryText results r / mb else 0
  semanticWeight * normalizedSemantic + bm25Weight * normalizedBm25

/-- The hybrid branch of semantic_search after scoring: _apply_hybrid_ranking
followed by the stable descending sort on
x.get('hybrid_score', x['similarity']).  When the query has no tokens,
_apply_hybrid_ranking returns the results unscored and the sort falls back to
the semantic similarity. -/
def applyHybridThenSort (logFn : ℚ → ℚ) (queryText : String)
    (results : List SearchResult) (semanticWeight bm25Weight : ℚ) :
    List SearchResult :=
  if (tokenize queryText).isEmpty then
    stableSortDesc (fun r => r.semanticScore) results
  else
    stableSortDesc (hybridScore logFn queryText results semanticWeight bm25Weight)
      results

/-! ### Per-chunk scoring in semantic_search -/

/-- One row of the Vector x KnowledgeItem join that semantic_search iterates
over: a chunk vector together with its item's fields. -/
structure VectorRow where
  itemId : ℕ
  title : String
  content : Option String
  contentPreview : String
  embedding : Option (List ℚ)
deriving DecidableEq

/-- The condition under which semantic_search scores a row: the chunk's
embedding is neither None nor empty. -/
def keepRow (row : VectorRow) : Bool :=
  match row.embedding with
  | none => false
  | some e => !e.isEmpty

/-- Cosine similarity as the code computes it; math.sqrt is abstracted as
sqrtFn.  A zero magnitude product yields 0. -/
def cosineSimilarity (sqrtFn : ℚ → ℚ) (a b : List ℚ) : ℚ :=
  let dotProduct := ((a.zip b).map (fun p => p.1 * p.2)).sum
  let magnitudeA := sqrtFn ((a.map (fun x => x * x)).sum)
  let magnitudeB := sqrtFn ((b.map (fun x => x * x)).sum)
  if magnitudeA * magnitudeB ≠ 0 then dotProduct / (magnitudeA * magnitudeB)
  else 0

/-- The scoring loop of semantic_search: rows whose embedding is None or
empty are skipped; every other row yields one scored entry, with the item's
full content when truthy and the chunk's preview otherwise. -/
def scoredResults (sqrtFn : ℚ → ℚ) (queryEmbedding : List ℚ)
    (rows : List VectorRow) : List SearchResult :=
  rows.filterMap fun row =>
    match row.embedding with
    | none => none
    | some e =>
      if e.isEmpty then none
      else
        some
          { resultId := row.itemId
            title := row.title
            content :=
              match row.content with
              | some c => if c.isEmpty then row.contentPreview else c
              | none => row.contentPreview
            semanticScore := cosineSimilarity sqrtFn queryEmbedding e }

/-- semantic_search after the database fetch: score the rows, rank, truncate
to 5 in hybrid mode and to the limit otherwise. -/
def semanticSearchRank (sqrtFn logFn : ℚ → ℚ) (queryText : String)
    (queryEmbedding : List ℚ) (rows : List VectorRow) (limit : ℕ)
    (useHybrid : Bool) (semanticWeight bm25Weight : ℚ) : List SearchResult :=
  let results := scoredResults sqrtFn queryEmbedding rows
  if useHybrid then
    (applyHybridThenSort logFn queryText results semanticWeight bm25Weight).take 5
  else
    (stableSortDesc (fun r => r.semanticScore) results).take limit

/-! ### The map-reduce pipeline (MapReduceService.process_query) -/

/-- The result dict process_query returns and stores in job.result. -/
structure QueryResult where
  response : String
  sources : List ItemEntry
  contextCount : ℕ
deriving DecidableEq

/-- The ProcessingJob fields the orchestrator reads and writes. -/
structure JobState where
  status : String
  currentPhase : String
  progress : ℚ
  totalItems : ℕ
  totalBatches : ℕ
  processedBatches : ℕ
  processedItems : ℕ
  failedBatches : ℕ
  result : Option QueryResult
  errorMessage : Option String
  errorPhase : Option String
deriving DecidableEq

/-- A freshly created job record (all counters at their zero defaults). -/
def initialJobState : JobState :=
  { status := "queued", currentPhase := "", progress := 0, totalItems := 0
    totalBatches := 0, processedBatches := 0, processedItems := 0
    failedBatches := 0, result := none, errorMessage := none
    errorPhase := none }

/-- The intent_data fields process_query reads. -/
structure IntentData where
  intentType : String
  semanticFilter : Option String
  threshold : Option ℚ
deriving DecidableEq

/-- Similarity score of an item's first chunk in _apply_semantic_filter;
items with no chunks or with a falsy first-chunk embedding are skipped. -/
def firstChunkScore (sqrtFn : ℚ → ℚ) (queryEmbedding : List ℚ)
    (item : ItemData) : Option ℚ :=
  match item.chunks with
  | [] => none
  | chunk :: _ =>
    match chunk.embedding with
    | none => none
    | some e =>
      if e.isEmpty then none
      else some (cosineSimilarity sqrtFn queryEmbedding e)

/-- MapReduceService._apply_semantic_filter: keep items whose first-chunk
similarity reaches the threshold (default 0.3) and sort them by similarity
descending. -/
def applySemanticFilter (sqrtFn : ℚ → ℚ) (queryEmbedding : List ℚ)
    (threshold : Option ℚ) (items : List ItemData) : List ItemData :=
  let scored := items.filterMap fun item =>
    match firstChunkScore sqrtFn queryEmbedding item with
    | none => none
    | some s =>
      if s ≥ threshold.getD (3 / 10) then some (item, s) else none
  (stableSortDesc (fun p => p.2) scored).map (fun p => p.1)

/-- The placeholder map result recorded for a batch whose task raised. -/
def failedBatchPlaceholder (idx : ℕ) (e : String) : MapResult :=
  { relevant := false, extractedData := [], themes := [], keyPoints := []
    summary := "", itemCount := 0, batchIndex := idx, itemsInBatch := 0
    error := some e }

/-- The result-collection loop of _map_phase together with the per-batch
bookkeeping of _process_map_batch.  `outcomes i` is the final outcome of
batch i's task after its retries: a parsed map result, or the exception
message of its last attempt.  A success increments processed_batches and
processed_items and advances progress; a failure increments failed_batches
and records the placeholder. -/
def mapPhaseGo (total : ℕ) (outcomes : ℕ → Except String MapResult)
    (idx : ℕ) : List (List ItemData) → JobState → JobState × List MapResult
  | [], job => (job, [])
  | batch :: rest, job =>
    match outcomes idx with
    | .ok r =>
      let job :=
        { job with
          processedBatches := job.processedBatches + 1
          processedItems := job.processedItems + batch.length
          progress :=
            1 / 10 + 3 / 4 * ((((job.processedBatches + 1 : ℕ)) : ℚ) / (total : ℚ)) }
      let next := mapPhaseGo total outcomes (idx + 1) rest job
      (next.1, { r with batchIndex := idx, itemsInBatch := batch.length } :: next.2)
    | .error e =>
      let job := { job with failedBatches := job.failedBatches + 1 }
      let next := mapPhaseGo total outcomes (idx + 1) rest job
      (next.1, failedBatchPlaceholder idx e :: next.2)

/-- MapReduceService._map_phase: process every batch, then raise when every
batch failed. -/
def mapPhase (job : JobState) (batches : List (List ItemData))
    (outcomes : ℕ → Except String MapResult) :
    Except String (JobState × List MapResult) :=
  let processed := mapPhaseGo job.totalBatches outcomes 0 batches job
  if processed.1.failedBatches = processed.1.totalBatches then
    .error "All batches failed to process"
  else
    .ok processed

/-- The except-handler of process_query: mark the job failed, recording the
message and the phase the job was in. -/
def failJob (job : JobState) (e : String) : JobState :=
  { job with
    status := "failed"
    errorMessage := some e
    errorPhase := some job.currentPhase }

/-- The canned response for an empty or unprocessed folder. -/
def emptyFolderResponse : String :=
  "The specified folder appears to be empty or has no processed items yet."

/-- Whether process_query applies the semantic filter: the intent's
filter_criteria.semantic_filter must be a truthy (non-empty) string. -/
def hasTruthySemanticFilter (intent : IntentData) : Bool :=
  match intent.semanticFilter with
  | some f => !f.isEmpty
  | none => false

/-- The item set surviving step 2 of process_query: filtered when the intent
carries a truthy semantic filter, unchanged otherwise. -/
def filteredItemsOf (intent : IntentData) (sqrtFn : ℚ → ℚ)
    (queryEmbedding : List ℚ) (items : List ItemData) : List ItemData :=
  if hasTruthySemanticFilter intent then
    applySemanticFilter sqrtFn queryEmbedding intent.threshold items
  else items

/-- MapReduceService.process_query, with the external calls supplied as
parameters: `items` is what the fetch step returned, `queryEmbedding` the
embedding of the semantic filter, `outcomes` the per-batch map outcomes and
`reduceResponse` the outcome of the reduce-phase LLM call.  Returns the final
job state (the returned result dict is stored in job.result). -/
def processQuery (job0 : JobState) (items : List ItemData)
    (intent : IntentData) (sqrtFn : ℚ → ℚ) (queryEmbedding : List ℚ)
    (outcomes : ℕ → Except String MapResult)
    (reduceResponse : Except String String) : JobState :=
  let job := { job0 with status := "processing", currentPhase := "initialization" }
  if items.isEmpty then
    { job with
      status := "completed"
      result := some { response := emptyFolderResponse, sources := [],
                       contextCount := 0 } }
  else
    let job := { job with totalItems := items.length }
    let filteredItems := filteredItemsOf intent sqrtFn queryEmbedding items
    let batches := createSmartBatches filteredItems
    let job := { job with totalBatches := batches.length, currentPhase := "map" }
    match mapPhase job batches outcomes with
    | .error e => failJob job e
    | .ok processed =>
      let job2 := { processed.1 with currentPhase := "reduce", progress := 17 / 20 }
      let aggregationSummary := calculateAggregation processed.2 intent.intentType
      let job3 := { job2 with currentPhase := "synthesis", progress := 19 / 20 }
      match reduceResponse with
      | .error e => failJob job3 e
      | .ok finalResponse =>
        { job3 with
          status := "completed"
          currentPhase := "complete"
          progress := 1
          result := some { response := finalResponse,
                           sources := (aggTopItems aggregationSummary).take 10,
                           contextCount := filteredItems.length } }

/-! ### Concrete inputs used to evaluate the model -/

/-- A list of n chunks without embeddings. -/
def exChunks (n : ℕ) : List Chunk :=
  (List.range n).map fun i => { chunkIndex := i, embedding := none, contentPreview := "" }

/-- Items with 3, 16, 5 and 9 chunks; the 16-chunk item is oversized. -/
def exItemsBatching : List ItemData :=
  [ { itemId := 1, title := "a", chunks := exChunks 3 }
  , { itemId := 2, title := "b", chunks := exChunks 16 }
  , { itemId := 3, title := "c", chunks := exChunks 5 }
  , { itemId := 4, title := "d", chunks := exChunks 9 } ]

/-- The singleton batch of the oversized 16-chunk item. -/
def exOversizeBatch : List ItemData :=
  [{ itemId := 2, title := "b", chunks := exChunks 16 }]

/-- An extracted entry with every field present. -/
def exEntry (src : String) (v : ℚ) (d c : String) : ExtractedItem :=
  { source := some src, value := some v, unit := some "USD"
    date := some d, category := some c }

/-- An extracted entry carrying a date but neither value nor category. -/
def exEntryNoValue : ExtractedItem :=
  { source := some "w", value := none, unit := none
    date := some "2024-12-01", category := none }

/-- An extracted entry with none of the optional fields. -/
def exEntryAllMissing : ExtractedItem :=
  { source := some "w", value := none, unit := none
    date := none, category := none }

/-- A relevant map result with five extracted entries. -/
def exOkMapResult : MapResult :=
  { relevant := true
    extractedData :=
      [ exEntry "s1" 10 "2024-12-01" "food"
      , exEntry "s2" 20 "2024-12-05" "food"
      , exEntry "s3" 5 "2024-11-02" "transport"
      , exEntry "s4" 7 "2024-11-20" "transport"
      , exEntry "s5" 3 "2024-10-09" "misc" ]
    themes := [], keyPoints := [], summary := "batch one", itemCount := 5
    batchIndex := 0, itemsInBatch := 2, error := none }

/-- A relevant map result with no extracted entries. -/
def exEmptyMapResult : MapResult :=
  { relevant := true, extractedData := [], themes := [], keyPoints := []
    summary := "batch two", itemCount := 0, batchIndex := 1, itemsInBatch := 1
    error := none }

/-- The placeholder of a failed batch. -/
def exErrMapResult : MapResult :=
  { relevant := false, extractedData := [], themes := [], keyPoints := []
    summary := "", itemCount := 0, batchIndex := 2, itemsInBatch := 0
    error := some "upstream timeout" }

/-- Three map results, one of them failed. -/
def exMapResults : List MapResult :=
  [exOkMapResult, exEmptyMapResult, exErrMapResult]

/-- The same three map results in a different order. -/
def exMapResultsPermuted : List MapResult :=
  [exErrMapResult, exOkMapResult, exEmptyMapResult]

/-- A single one-chunk item for exercising the pipeline. -/
def exPipelineItems : List ItemData :=
  [{ itemId := 7, title := "doc", chunks := exChunks 1 }]

/-- An aggregation intent without a semantic filter. -/
def exPipelineIntent : IntentData :=
  { intentType := "aggregation", semanticFilter := none, threshold := none }

/-- A candidate with a negative semantic score whose document shares no
token with the query "hello". -/
def exNegR1 : SearchResult :=
  { resultId := 1, title := "a", content := "", semanticScore := -1/2 }

/-- A second candidate with a higher but still negative semantic score. -/
def exNegR2 : SearchResult :=
  { resultId := 2, title := "b", content := "", semanticScore := -1/4 }

/-- Two candidates whose semantic scores are both negative. -/
def exNegCandidates : List SearchResult := [exNegR1, exNegR2]

/-- A candidate with a positive semantic score containing the query term
"hello". -/
def exPosR1 : SearchResult :=
  { resultId := 1, title := "hello world", content := "", semanticScore := 1/2 }

/-- A candidate with a positive semantic score and no query term. -/
def exPosR2 : SearchResult :=
  { resultId := 2, title := "other things", content := "", semanticScore := 1/4 }

/-- Two candidates with positive semantic scores. -/
def exPosCandidates : List SearchResult := [exPosR1, exPosR2]

/-- A chunk row of item 3 with no stored embedding. -/
def exRowNoEmb : VectorRow :=
  { itemId := 3, title := "skipped", content := none, contentPreview := "p"
    embedding := none }

/-- A chunk row of item 2 with embedding [3]. -/
def exRowItem2 : VectorRow :=
  { itemId := 2, title := "two", content := some "c2", contentPreview := "p2"
    embedding := some [3] }

/-- The first chunk row of item 1, embedding [1]. -/
def exRowItem1a : VectorRow :=
  { itemId := 1, title := "one", content := some "c1", contentPreview := "p1"
    embedding := some [1] }

/-- A chunk row of item 3 with an empty embedding. -/
def exRowEmptyEmb : VectorRow :=
  { itemId := 3, title := "skipped2", content := none, contentPreview := "p"
    embedding := some [] }

/-- The second chunk row of item 1, embedding [2]. -/
def exRowItem1b : VectorRow :=
  { itemId := 1, title := "one", content := some "c1", contentPreview := "p1"
    embedding := some [2] }

/-- Five chunk rows: item 1 has two embedded chunks, item 2 one, and item 3
one absent and one empty embedding. -/
def exVectorRows : List VectorRow :=
  [exRowNoEmb, exRowItem2, exRowItem1a, exRowEmptyEmb, exRowItem1b]

/-! ### Accessors used to state aggregation properties -/

/-- item.get("value", 0). -/
def extValue (it : ExtractedItem) : ℚ := it.value.getD 0

/-- item.get("category", "uncategorized"). -/
def extCategory (it : ExtractedItem) : String := it.category.getD "uncategorized"

/-- The by_month key an extracted entry produces: the first seven characters
of its date when the date is a truthy string, nothing otherwise. -/
def extMonthKey (it : ExtractedItem) : Option String :=
  match it.date with
  | some d => if d.isEmpty then none else some (d.take 7)
  | none => none

/-- Combining a dict entry with the contribution of a list suffix: an absent
entry stays absent when the suffix contributes nothing and otherwise starts
at the suffix's count and sum. -/
def combineEntry (o : Option (ℕ × ℚ)) (cnt : ℕ) (sm : ℚ) : Option (ℕ × ℚ) :=
  match o with
  | none => if cnt = 0 then none else some (cnt, sm)
  | some e => some (e.1 + cnt, e.2 + sm)

/-- Whether a batch outcome is a success. -/
def outcomeOk : Except String MapResult → Bool
  | .ok _ => true
  | .error _ => false

/-- Number of failed outcomes among batch indices idx, idx+1, ..., idx+n-1. -/
def countFailures (outcomes : ℕ → Except String MapResult) (idx : ℕ) :
    ℕ → ℕ
  | 0 => 0
  | n + 1 =>
    (if outcomeOk (outcomes idx) then 0 else 1) + countFailures outcomes (idx + 1) n

/-! ## Helper lemmas -/

/-- Two keys that induce the same comparisons insert identically. -/
theorem insertDesc_congr (k j : α → ℚ) (a : α) (l : List α)
    (h : ∀ x y : α, k x ≤ k y ↔ j x ≤ j y) :
    insertDesc k a l = insertDesc j a l := by
  induction l with
  | nil => rfl
  | cons b rest ih =>
    simp only [insertDesc]
    by_cases hb : k b ≤ k a
    · rw [if_pos hb, if_pos ((h b a).mp hb)]
    · rw [if_neg hb, if_neg (fun hc => hb ((h b a).mpr hc)), ih]

/-- Two keys that induce the same comparisons sort identically: the stable
descending sort only looks at key comparisons. -/
theorem stableSortDesc_congr (k j : α → ℚ) (l : List α)
    (h : ∀ x y : α, k x ≤ k y ↔ j x ≤ j y) :
    stableSortDesc k l = stableSortDesc j l := by
  induction l with
  | nil => rfl
  | cons a rest ih =>
    simp only [stableSortDesc]
    rw [ih, insertDesc_congr k j a _ h]

/-- A prefix test for a longer needle implies one for its initial part. -/
theorem isPrefixChars_append (as bs h : List Char)
    (hp : isPrefixChars (as ++ bs) h = true) : isPrefixChars as h = true := by
  induction as generalizing h with
  | nil => rfl
  | cons a rest ih =>
    cases h with
    | nil => simp [isPrefixChars] at hp
    | cons c t =>
      simp only [List.cons_append, isPrefixChars, Bool.and_eq_true] at hp ⊢
      exact ⟨hp.1, ih t hp.2⟩

/-- A substring test for a longer needle implies one for its initial part. -/
theorem hasSubChars_append (as bs h : List Char)
    (hp : hasSubChars (as ++ bs) h = true) : hasSubChars as h = true := by
  induction h with
  | nil =>
    simp only [hasSubChars, List.isEmpty_eq_true, List.append_eq_nil] at hp ⊢
    exact hp.1
  | cons c t ih =>
    simp only [hasSubChars, Bool.or_eq_true] at hp ⊢
    rcases hp with hp | hp
    · exact Or.inl (isPrefixChars_append as bs _ hp)
    · exact Or.inr (ih hp)

/-- The Python test `"sum" in q` follows from `"summary" in q`. -/
theorem strContains_sum_of_summary (q : String)
    (h : strContains q "summary" = true) : strContains q "sum" = true := by
  have : ("summary".toList : List Char) = "sum".toList ++ "mary".toList := by decide
  unfold strContains at h ⊢
  rw [this] at h
  exact hasSubChars_append _ _ _ h

/-- The Python test `"sum" in q` follows from `"summarize" in q`. -/
theorem strContains_sum_of_summarize (q : String)
    (h : strContains q "summarize" = true) : strContains q "sum" = true := by
  have : ("summarize".toList : List Char) = "sum".toList ++ "marize".toList := by decide
  unfold strContains at h ⊢
  rw [this] at h
  exact hasSubChars_append _ _ _ h

/-! ## Lemmas about _create_smart_batches -/

/-- The batching loop emits exactly the current batch followed by the
remaining items: concatenating its output restores the input. -/
theorem createSmartBatchesGo_flatten :
    ∀ (rest cur : List ItemData) (n : ℕ),
    (createSmartBatchesGo cur n rest).flatten = cur ++ rest := by
  intro rest
  induction rest with
  | nil =>
    intro cur n
    by_cases h : cur.isEmpty
    · simp [createSmartBatchesGo, h, List.isEmpty_eq_true.mp h]
    · simp [createSmartBatchesGo, h]
  | cons it rest ih =>
    intro cur n
    by_cases h1 : (chunkCount it : ℚ) > (TARGET_CHUNKS_PER_BATCH : ℚ) * (3 / 2)
    · by_cases h2 : cur.isEmpty
      · simp [createSmartBatchesGo, h1, h2, ih, List.isEmpty_eq_true.mp h2]
      · simp [createSmartBatchesGo, h1, h2, ih]
    · by_cases h2 :
        ((n : ℚ) + (chunkCount it : ℚ) > (TARGET_CHUNKS_PER_BATCH : ℚ) * (6 / 5))
      · by_cases h3 : cur.isEmpty
        · simp [createSmartBatchesGo, h1, h2, h3, ih, List.isEmpty_eq_true.mp h3]
        · simp [createSmartBatchesGo, h1, h2, h3, ih]
      · simp [createSmartBatchesGo, h1, h2, ih]

/-- Chunk count of an extended batch. -/
theorem batchChunks_append_single (b : List ItemData) (it : ItemData) :
    batchChunks (b ++ [it]) = batchChunks b + chunkCount it := by
  simp [batchChunks]

/-- Size invariant of the batching loop: provided the running batch's chunk
count is within 1.5 times the target, every emitted batch is within that
bound or is a singleton holding an oversized item. -/
theorem createSmartBatchesGo_bound :
    ∀ (rest cur : List ItemData) (n : ℕ), batchChunks cur = n →
    (n : ℚ) ≤ (TARGET_CHUNKS_PER_BATCH : ℚ) * (3 / 2) →
    ∀ b ∈ createSmartBatchesGo cur n rest,
      (batchChunks b : ℚ) ≤ (TARGET_CHUNKS_PER_BATCH : ℚ) * (3 / 2) ∨
      ∃ it, b = [it] ∧ (chunkCount it : ℚ) > (TARGET_CHUNKS_PER_BATCH : ℚ) * (3 / 2) := by
  intro rest
  induction rest with
  | nil =>
    intro cur n hcur hle b hb
    by_cases h : cur.isEmpty
    · simp [createSmartBatchesGo, h] at hb
    · simp [createSmartBatchesGo, h] at hb
      subst hb
      exact Or.inl (hcur ▸ hle)
  | cons it rest ih =>
    intro cur n hcur hle b hb
    by_cases h1 : (chunkCount it : ℚ) > (TARGET_CHUNKS_PER_BATCH : ℚ) * (3 / 2)
    · by_cases h2 : cur.isEmpty
      · simp [createSmartBatchesGo, h1, h2] at hb
        rcases hb with hb | hb
        · subst hb
          exact Or.inr ⟨it, rfl, h1⟩
        · exact ih [] 0 rfl (by positivity) b hb
      · simp [createSmartBatchesGo, h1, h2] at hb
        rcases hb with hb | hb | hb
        · subst hb
          exact Or.inl (hcur ▸ hle)
        · subst hb
          exact Or.inr ⟨it, rfl, h1⟩
        · exact ih [] 0 rfl (by positivity) b hb
    · by_cases h2 :
        ((n : ℚ) + (chunkCount it : ℚ) > (TARGET_CHUNKS_PER_BATCH : ℚ) * (6 / 5))
      · have hitle : (chunkCount it : ℚ) ≤ (TARGET_CHUNKS_PER_BATCH : ℚ) * (3 / 2) :=
          le_of_not_lt h1
        by_cases h3 : cur.isEmpty
        · simp [createSmartBatchesGo, h1, h2, h3] at hb
          exact ih [it] (chunkCount it) (by simp [batchChunks]) hitle b hb
        · simp [createSmartBatchesGo, h1, h2, h3] at hb
          rcases hb with hb | hb
          · subst hb
            exact Or.inl (hcur ▸ hle)
          · exact ih [it] (chunkCount it) (by simp [batchChunks]) hitle b hb
      · simp [createSmartBatchesGo, h1, h2] at hb
        refine ih (cur ++ [it]) (n + chunkCount it) ?_ ?_ b hb
        · rw [batchChunks_append_single, hcur]
        · push_cast
          have h12 : (n : ℚ) + (chunkCount it : ℚ) ≤
              (TARGET_CHUNKS_PER_BATCH : ℚ) * (6 / 5) := le_of_not_lt h2
          have hmono : (TARGET_CHUNKS_PER_BATCH : ℚ) * (6 / 5) ≤
              (TARGET_CHUNKS_PER_BATCH : ℚ) * (3 / 2) := by
            norm_num [TARGET_CHUNKS_PER_BATCH]
          linarith

/-! ## Claim C1 -/

/-- Claim C1: the batches returned by _create_smart_batches partition the
filtered items exactly once — concatenating the batches in order restores
the input, so the sum of batch sizes equals the number of items — and every
batch's total chunk count is at most 1.5 times the target of 10 chunks,
except singleton batches created for an item whose own chunk count exceeds
1.5 times the target. -/
theorem createSmartBatches_partition (items : List ItemData) :
    (createSmartBatches items).flatten = items ∧
    ((createSmartBatches items).map List.length).sum = items.length ∧
    ∀ b ∈ createSmartBatches items,
      (batchChunks b : ℚ) ≤ (TARGET_CHUNKS_PER_BATCH : ℚ) * (3 / 2) ∨
      ∃ it, b = [it] ∧ (chunkCount it : ℚ) > (TARGET_CHUNKS_PER_BATCH : ℚ) * (3 / 2) := by
  have hflat : (createSmartBatches items).flatten = items :=
    createSmartBatchesGo_flatten items [] 0
  refine ⟨hflat, ?_, ?_⟩
  · rw [← List.length_flatten, hflat]
  · exact createSmartBatchesGo_bound items [] 0 rfl (by positivity)

/-- Witness for C1 at a concrete item list containing an oversized item. -/
theorem createSmartBatches_partition_witness :
    (createSmartBatches exItemsBatching).flatten = exItemsBatching ∧
    ((batchChunks exOversizeBatch : ℚ) ≤ (TARGET_CHUNKS_PER_BATCH : ℚ) * (3 / 2) ∨
      ∃ it, exOversizeBatch = [it] ∧
        (chunkCount it : ℚ) > (TARGET_CHUNKS_PER_BATCH : ℚ) * (3 / 2)) :=
  ⟨(createSmartBatches_partition exItemsBatching).1,
   (createSmartBatches_partition exOversizeBatch).2.2 exOversizeBatch (by
    norm_num [createSmartBatches, createSmartBatchesGo, exOversizeBatch,
      chunkCount, exChunks, TARGET_CHUNKS_PER_BATCH])⟩

/-! ## Claim C5 -/

/-- The code's keyword dispatch agrees with the spec's keyword table: the
extra "summary" keyword in the code's summary list is unreachable, because
any query containing "summary" also contains the aggregation keyword
"sum". -/
theorem defaultIntentType_matches_spec (q : String) :
    (defaultIntentType q).1 = specKeywordIntentType q := by
  unfold defaultIntentType specKeywordIntentType
  simp only [aggregationKeywords, summaryKeywords]
  by_cases hA : (["total", "sum", "count", "how many", "average", "all"].any
      (fun kw => strContains (strLower q) kw)) = true
  · simp [hA]
  · have hsum : strContains (strLower q) "sum" = false := by
      cases h : strContains (strLower q) "sum"
      · rfl
      · exact absurd (by simp [List.any_cons, h]) hA
    have hsummary : strContains (strLower q) "summary" = false := by
      cases h : strContains (strLower q) "summary"
      · rfl
      · exact absurd (strContains_sum_of_summary (strLower q) h) (by simp [hsum])
    simp only [hA, if_false, Bool.false_eq_true]
    simp only [List.any_cons, List.any_nil, hsummary, Bool.false_or, Bool.or_false]
    by_cases hS : (strContains (strLower q) "summarize" ||
        (strContains (strLower q) "overview" ||
          strContains (strLower q) "tell me about")) = true
    · simp [hS]
    · simp [hS]

/-- Claim C5: the keyword fallback classifier is a deterministic function
that matches the spec's keyword table exactly — "aggregation" when the
lowercased query contains an aggregation keyword, otherwise
"full_folder_summary" when it contains a summary keyword, otherwise
"quick_qa" — and its confidence is always 0.3. -/
theorem getDefaultIntent_matches_spec_table (q : String) (counts : List ℕ) :
    (getDefaultIntent q counts).intentType = specKeywordIntentType q ∧
    (getDefaultIntent q counts).confidence = 3 / 10 := by
  constructor
  · have h : (getDefaultIntent q counts).intentType = (defaultIntentType q).1 := by
      simp [getDefaultIntent]
    rw [h, defaultIntentType_matches_spec]
  · simp [getDefaultIntent]

/-! ## Claim C4 -/

/-- Counterexample to C4 as stated: on the keyword-fallback path the reduce
term is missing from the time estimate.  For the query "total" over a
20-item folder the fallback estimates 20 items and 3.0 seconds, but the
claimed formula gives 1.0 + 20/10 + 1.0 = 4.0 seconds. -/
theorem intentEstimates_claim_counterexample :
    ¬((getDefaultIntent "total" [20]).estimatedTimeSeconds =
      1 + ((getDefaultIntent "total" [20]).estimatedItems : ℚ) / 10 +
      (if (getDefaultIntent "total" [20]).estimatedItems > 50 then 2 else 1)) := by
  have hd : defaultIntentType "total" = ("aggregation", true) := by decide
  norm_num [getDefaultIntent, hd, ITEMS_PER_SECOND_ESTIMATE,
    QUICK_QUERY_THRESHOLD_SECONDS]

/-- Claim C4 amended: the LLM-validated path satisfies
estimated_time_seconds = 1.0 + estimated_items / 10 +
(2.0 if estimated_items > 50 else 1.0), while the keyword-fallback path
satisfies estimated_time_seconds = 1.0 + estimated_items / 10 with no
reduce term; on both paths requires_async is true exactly when
estimated_time_seconds > 5. -/
theorem intentEstimates_formula_amended (intentType : String)
    (confidence : ℚ) (rfs hsf : Bool) (counts : List ℕ) (q : String)
    (counts2 : List ℕ) :
    ((validateAndEnrich intentType confidence rfs hsf counts).estimatedTimeSeconds =
      1 + ((validateAndEnrich intentType confidence rfs hsf counts).estimatedItems : ℚ) / 10 +
      (if (validateAndEnrich intentType confidence rfs hsf counts).estimatedItems > 50
        then 2 else 1)) ∧
    ((validateAndEnrich intentType confidence rfs hsf counts).requiresAsync = true ↔
      (validateAndEnrich intentType confidence rfs hsf counts).estimatedTimeSeconds > 5) ∧
    ((getDefaultIntent q counts2).estimatedTimeSeconds =
      1 + ((getDefaultIntent q counts2).estimatedItems : ℚ) / 10) ∧
    ((getDefaultIntent q counts2).requiresAsync = true ↔
      (getDefaultIntent q counts2).estimatedTimeSeconds > 5) := by
  refine ⟨?_, ?_, ?_, ?_⟩ <;>
    simp [validateAndEnrich, getDefaultIntent, ITEMS_PER_SECOND_ESTIMATE,
      QUICK_QUERY_THRESHOLD_SECONDS, decide_eq_true_iff]

/-! ## Lemmas about dict updates -/

/-- Looking up the updated key after an upsert. -/
theorem dictFind_dictUpsert_self (m : List (String × ℕ × ℚ)) (k : String)
    (v : ℚ) :
    dictFind (dictUpsert m k v) k =
      some (match dictFind m k with
            | none => (1, v)
            | some e => (e.1 + 1, e.2 + v)) := by
  induction m with
  | nil => simp [dictUpsert, dictFind]
  | cons e rest ih =>
    by_cases h : e.1 = k
    · simp [dictUpsert, dictFind, h]
    · simp [dictUpsert, dictFind, h, ih]

/-- Looking up a different key after an upsert. -/
theorem dictFind_dictUpsert_ne (m : List (String × ℕ × ℚ)) (k j : String)
    (v : ℚ) (h : j ≠ k) :
    dictFind (dictUpsert m k v) j = dictFind m j := by
  induction m with
  | nil => simp [dictUpsert, dictFind, h, Ne.symm h]
  | cons e rest ih =>
    by_cases he : e.1 = k
    · simp [dictUpsert, dictFind, he, h, Ne.symm h]
    · by_cases hj : e.1 = j
      · simp [dictUpsert, dictFind, he, hj, h, Ne.symm h]
      · simp [dictUpsert, dictFind, he, hj, h, Ne.symm h, ih]

/-! ## Claim C10 -/

/-- Claim C10: in the aggregation loop, an entry with no value field
contributes 0 to the total and to its category bucket's total — and, when it
carries a truthy date, to its month bucket's total — while still
incrementing all of those counts; an entry with no category is bucketed
under "uncategorized"; an entry with no date is excluded only from by_month
while total, count, by_category and the items list still include it. -/
theorem aggFold_missing_fields (es : List ExtractedItem) (it : ExtractedItem) :
    (it.value = none →
      (aggFold (es ++ [it])).total = (aggFold es).total ∧
      (aggFold (es ++ [it])).count = (aggFold es).count + 1 ∧
      dictFind (aggFold (es ++ [it])).byCategory (extCategory it) =
        some (match dictFind (aggFold es).byCategory (extCategory it) with
              | none => (1, 0)
              | some e => (e.1 + 1, e.2)) ∧
      (∀ d, it.date = some d → d.isEmpty = false →
        dictFind (aggFold (es ++ [it])).byMonth (d.take 7) =
          some (match dictFind (aggFold es).byMonth (d.take 7) with
                | none => (1, 0)
                | some e => (e.1 + 1, e.2)))) ∧
    (it.category = none →
      dictFind (aggFold (es ++ [it])).byCategory "uncategorized" =
        some (match dictFind (aggFold es).byCategory "uncategorized" with
              | none => (1, extValue it)
              | some e => (e.1 + 1, e.2 + extValue it))) ∧
    (it.date = none →
      (aggFold (es ++ [it])).byMonth = (aggFold es).byMonth ∧
      (aggFold (es ++ [it])).total = (aggFold es).total + extValue it ∧
      (aggFold (es ++ [it])).count = (aggFold es).count + 1 ∧
      dictFind (aggFold (es ++ [it])).byCategory (extCategory it) =
        some (match dictFind (aggFold es).byCategory (extCategory it) with
              | none => (1, extValue it)
              | some e => (e.1 + 1, e.2 + extValue it)) ∧
      (aggFold (es ++ [it])).itemsList = (aggFold es).itemsList ++
        [⟨it.source, extValue it, it.unit, it.date, extCategory it⟩]) := by
  have hstep : aggFold (es ++ [it]) = aggStep (aggFold es) it := by
    simp [aggFold, List.foldl_append]
  refine ⟨?_, ?_, ?_⟩
  · intro hv
    refine ⟨?_, ?_, ?_, ?_⟩
    · simp [hstep, aggStep, hv]
    · simp [hstep, aggStep]
    · rw [hstep]
      show dictFind (dictUpsert (aggFold es).byCategory (it.category.getD "uncategorized")
        (it.value.getD 0)) (extCategory it) = _
      rw [show it.category.getD "uncategorized" = extCategory it from rfl,
        dictFind_dictUpsert_self]
      have hv0 : it.value.getD 0 = 0 := by simp [hv]
      rw [hv0]
      cases dictFind (aggFold es).byCategory (extCategory it) <;> simp
    · intro d hd hde
      rw [hstep]
      have hm : (aggStep (aggFold es) it).byMonth =
          dictUpsert (aggFold es).byMonth (d.take 7) (it.value.getD 0) := by
        simp [aggStep, hd, hde]
      rw [hm, dictFind_dictUpsert_self]
      have hv0 : it.value.getD 0 = 0 := by simp [hv]
      rw [hv0]
      cases dictFind (aggFold es).byMonth (d.take 7) <;> simp
  · intro hc
    rw [hstep]
    show dictFind (dictUpsert (aggFold es).byCategory (it.category.getD "uncategorized")
      (it.value.getD 0)) "uncategorized" = _
    rw [show it.category.getD "uncategorized" = "uncategorized" by simp [hc],
      show it.value.getD 0 = extValue it from rfl, dictFind_dictUpsert_self]
  · intro hd
    refine ⟨?_, ?_, ?_, ?_, ?_⟩
    · simp [hstep, aggStep, hd]
    · simp [hstep, aggStep, extValue]
    · simp [hstep, aggStep]
    · rw [hstep]
      show dictFind (dictUpsert (aggFold es).byCategory (it.category.getD "uncategorized")
        (it.value.getD 0)) (extCategory it) = _
      rw [show it.category.getD "uncategorized" = extCategory it from rfl,
        show it.value.getD 0 = extValue it from rfl, dictFind_dictUpsert_self]
    · simp [hstep, aggStep, extValue, extCategory]

/-- Witness for C10 at two concrete entries appended to the empty prefix:
one carrying a date but no value and no category (exercising the
value-missing clauses, month bucket included, and the category-missing
clause), and one with none of the optional fields (exercising the
date-missing clauses). -/
theorem aggFold_missing_fields_witness :
    ((aggFold ([] ++ [exEntryNoValue])).total = (aggFold []).total ∧
      (aggFold ([] ++ [exEntryNoValue])).count = (aggFold []).count + 1 ∧
      dictFind (aggFold ([] ++ [exEntryNoValue])).byCategory
          (extCategory exEntryNoValue) =
        some (match dictFind (aggFold []).byCategory (extCategory exEntryNoValue) with
              | none => (1, 0)
              | some e => (e.1 + 1, e.2)) ∧
      dictFind (aggFold ([] ++ [exEntryNoValue])).byMonth ("2024-12-01".take 7) =
        some (match dictFind (aggFold []).byMonth ("2024-12-01".take 7) with
              | none => (1, 0)
              | some e => (e.1 + 1, e.2)) ∧
      dictFind (aggFold ([] ++ [exEntryNoValue])).byCategory "uncategorized" =
        some (match dictFind (aggFold []).byCategory "uncategorized" with
              | none => (1, extValue exEntryNoValue)
              | some e => (e.1 + 1, e.2 + extValue exEntryNoValue))) ∧
    ((aggFold ([] ++ [exEntryAllMissing])).byMonth = (aggFold []).byMonth ∧
      (aggFold ([] ++ [exEntryAllMissing])).total =
        (aggFold []).total + extValue exEntryAllMissing ∧
      (aggFold ([] ++ [exEntryAllMissing])).count = (aggFold []).count + 1 ∧
      dictFind (aggFold ([] ++ [exEntryAllMissing])).byCategory
          (extCategory exEntryAllMissing) =
        some (match dictFind (aggFold []).byCategory
                (extCategory exEntryAllMissing) with
              | none => (1, extValue exEntryAllMissing)
              | some e => (e.1 + 1, e.2 + extValue exEntryAllMissing)) ∧
      (aggFold ([] ++ [exEntryAllMissing])).itemsList =
        (aggFold []).itemsList ++
        [⟨exEntryAllMissing.source, extValue exEntryAllMissing,
          exEntryAllMissing.unit, exEntryAllMissing.date,
          extCategory exEntryAllMissing⟩]) :=
  ⟨⟨((aggFold_missing_fields [] exEntryNoValue).1 rfl).1,
    ((aggFold_missing_fields [] exEntryNoValue).1 rfl).2.1,
    ((aggFold_missing_fields [] exEntryNoValue).1 rfl).2.2.1,
    ((aggFold_missing_fields [] exEntryNoValue).1 rfl).2.2.2 "2024-12-01" rfl rfl,
    (aggFold_missing_fields [] exEntryNoValue).2.1 rfl⟩,
   (aggFold_missing_fields [] exEntryAllMissing).2.2 rfl⟩

/-! ## Claim C6 -/

/-- Counterexample to C6 as stated: the code rounds the confidence to two
decimal places, which the claim omits.  With three batches of which one
failed and at least five items found, the code computes round(2/3, 2) =
0.67, not 2/3. -/
theorem calculateConfidence_claim_counterexample :
    ¬(calculateConfidence exMapResults
        (calculateAggregation exMapResults "aggregation") =
      1 - ((exMapResults.filter (fun r => r.error.isSome)).length : ℚ) /
        (exMapResults.length : ℚ)) := by
  have hcount : aggCountOrZero (calculateAggregation exMapResults "aggregation") = 5 := by
    simp [calculateAggregation, allExtracted, exMapResults, exOkMapResult,
      exEmptyMapResult, exErrMapResult, aggFold, aggStep, emptyAggAcc,
      aggCountOrZero, exEntry]
  have hfloor : (⌊(200/3 : ℚ)⌋ : ℤ) = 66 := by
    rw [Int.floor_eq_iff] <;> norm_num
  have hlen : (exMapResults.filter (fun r => r.error.isSome)).length = 1 := by
    simp [exMapResults, exOkMapResult, exEmptyMapResult, exErrMapResult]
  have hlen2 : exMapResults.length = 3 := by simp [exMapResults]
  rw [calculateConfidence, hlen, hlen2]
  norm_num [hcount, pyRound2, roundHalfEven, hfloor]

/-- Claim C6 amended: for every non-empty list of map results, the computed
confidence equals 1 − failed_batches/total_batches, multiplied by 0.7 when
fewer than 5 relevant items were found, rounded half-to-even to two decimal
places; and it equals 0.0 when every batch failed. -/
theorem calculateConfidence_formula_amended (mrs : List MapResult)
    (s : AggOutput) (hne : mrs ≠ []) :
    (calculateConfidence mrs s =
      if mrs.countP (fun r => r.error.isSome) = mrs.length then 0
      else
        pyRound2 ((1 - (mrs.countP (fun r => r.error.isSome) : ℚ) / (mrs.length : ℚ)) *
          (if aggCountOrZero s < 5 then 7 / 10 else 1))) ∧
    ((∀ r ∈ mrs, r.error.isSome) → calculateConfidence mrs s = 0) := by
  constructor
  · rw [calculateConfidence, List.countP_eq_length_filter]
    by_cases hall : (mrs.filter (fun r => r.error.isSome)).length = mrs.length
    · simp [hall]
    · by_cases hfew : aggCountOrZero s < 5
      · simp [hall, hfew]
      · simp [hall, hfew]
  · intro hall
    have : mrs.filter (fun r => r.error.isSome) = mrs :=
      List.filter_eq_self.mpr (fun a ha => hall a ha)
    rw [calculateConfidence, this]
    simp

/-- Witness for C6 amended at the three concrete map results with one
failure. -/
theorem calculateConfidence_formula_amended_witness :
    (calculateConfidence exMapResults
        (calculateAggregation exMapResults "aggregation") =
      if exMapResults.countP (fun r => r.error.isSome) = exMapResults.length then 0
      else
        pyRound2 ((1 - (exMapResults.countP (fun r => r.error.isSome) : ℚ) /
            (exMapResults.length : ℚ)) *
          (if aggCountOrZero (calculateAggregation exMapResults "aggregation") < 5
            then 7 / 10 else 1))) ∧
    ((∀ r ∈ exMapResults, r.error.isSome) →
      calculateConfidence exMapResults
        (calculateAggregation exMapResults "aggregation") = 0) :=
  calculateConfidence_formula_amended exMapResults
    (calculateAggregation exMapResults "aggregation") (by simp [exMapResults])

/-! ## Lemmas about the aggregation loop -/

/-- Field equation of one aggregation step: the total. -/
theorem aggStep_total (a : AggAcc) (it : ExtractedItem) :
    (aggStep a it).total = a.total + extValue it := rfl

/-- Field equation of one aggregation step: the count. -/
theorem aggStep_count (a : AggAcc) (it : ExtractedItem) :
    (aggStep a it).count = a.count + 1 := rfl

/-- Field equation of one aggregation step: the category dict. -/
theorem aggStep_byCategory (a : AggAcc) (it : ExtractedItem) :
    (aggStep a it).byCategory =
      dictUpsert a.byCategory (extCategory it) (extValue it) := rfl

/-- Field equation of one aggregation step: the month dict. -/
theorem aggStep_byMonth (a : AggAcc) (it : ExtractedItem) :
    (aggStep a it).byMonth =
      match extMonthKey it with
      | none => a.byMonth
      | some mk => dictUpsert a.byMonth mk (extValue it) := by
  cases hd : it.date with
  | none => simp [aggStep, extMonthKey, hd]
  | some d =>
    by_cases he : d.isEmpty
    · simp [aggStep, extMonthKey, extValue, hd, he]
    · simp [aggStep, extMonthKey, extValue, hd, he]

/-- The aggregation loop adds the sum of the entries' values to the total. -/
theorem aggFoldFrom_total (es : List ExtractedItem) :
    ∀ a : AggAcc, (es.foldl aggStep a).total = a.total + (es.map extValue).sum := by
  induction es with
  | nil => intro a; simp
  | cons it es ih =>
    intro a
    rw [List.foldl_cons, ih, aggStep_total]
    simp [add_assoc]

/-- The aggregation loop adds the number of entries to the count. -/
theorem aggFoldFrom_count (es : List ExtractedItem) :
    ∀ a : AggAcc, (es.foldl aggStep a).count = a.count + es.length := by
  induction es with
  | nil => intro a; simp
  | cons it es ih =>
    intro a
    rw [List.foldl_cons, ih, aggStep_count]
    simp only [List.length_cons]
    omega

/-- The aggregation loop combines each category bucket with the count of the
entries in that category and the sum of their values. -/
theorem aggFoldFrom_byCategory (es : List ExtractedItem) (k : String) :
    ∀ a : AggAcc,
    dictFind (es.foldl aggStep a).byCategory k =
      combineEntry (dictFind a.byCategory k)
        (es.countP (fun it => extCategory it == k))
        (((es.filter (fun it => extCategory it == k)).map extValue).sum) := by
  induction es with
  | nil =>
    intro a
    cases h : dictFind a.byCategory k <;> simp [combineEntry, h]
  | cons it es ih =>
    intro a
    rw [List.foldl_cons, ih, aggStep_byCategory]
    by_cases hc : extCategory it = k
    · rw [hc, dictFind_dictUpsert_self]
      cases h : dictFind a.byCategory k with
      | none =>
        simp [combineEntry, h, List.countP_cons, List.filter_cons, hc]
        omega
      | some e =>
        simp [combineEntry, h, List.countP_cons, List.filter_cons, hc]
        constructor <;> first | omega | ring
    · rw [dictFind_dictUpsert_ne _ _ _ _ (fun hk => hc hk.symm)]
      simp [List.countP_cons, List.filter_cons, hc]

/-- The aggregation loop combines each month bucket with the count of the
entries carrying that month and the sum of their values. -/
theorem aggFoldFrom_byMonth (es : List ExtractedItem) (k : String) :
    ∀ a : AggAcc,
    dictFind (es.foldl aggStep a).byMonth k =
      combineEntry (dictFind a.byMonth k)
        (es.countP (fun it => extMonthKey it == some k))
        (((es.filter (fun it => extMonthKey it == some k)).map extValue).sum) := by
  induction es with
  | nil =>
    intro a
    cases h : dictFind a.byMonth k <;> simp [combineEntry, h]
  | cons it es ih =>
    intro a
    rw [List.foldl_cons, ih]
    have hm := aggStep_byMonth a it
    cases hmk : extMonthKey it with
    | none =>
      rw [hmk] at hm
      rw [hm]
      simp [List.countP_cons, List.filter_cons, hmk]
    | some mk =>
      rw [hmk] at hm
      rw [hm]
      by_cases hc : mk = k
      · rw [hc, dictFind_dictUpsert_self]
        cases h : dictFind a.byMonth k with
        | none =>
          simp [combineEntry, h, List.countP_cons, List.filter_cons, hmk, hc]
          omega
        | some e =>
          simp [combineEntry, h, List.countP_cons, List.filter_cons, hmk, hc]
          constructor <;> first | omega | ring
      · rw [dictFind_dictUpsert_ne _ _ _ _ (fun hk => hc hk.symm)]
        simp [List.countP_cons, List.filter_cons, hmk, hc]

/-! ## Claim C2 -/

/-- Claim C2: for aggregation-type intents, _calculate_aggregation is
order-independent — permuting the map results yields the same total, count,
by_category and by_month, the dicts compared as maps. -/
theorem calculateAggregation_perm_invariant (mrs mrs2 : List MapResult)
    (intentType : String)
    (hty : intentType = "aggregation" ∨ intentType = "filtered_aggregation")
    (hperm : mrs.Perm mrs2) :
    aggTotalField (calculateAggregation mrs intentType) =
      aggTotalField (calculateAggregation mrs2 intentType) ∧
    aggCountField (calculateAggregation mrs intentType) =
      aggCountField (calculateAggregation mrs2 intentType) ∧
    (∀ k, byCategoryLookup (calculateAggregation mrs intentType) k =
      byCategoryLookup (calculateAggregation mrs2 intentType) k) ∧
    (∀ k, byMonthLookup (calculateAggregation mrs intentType) k =
      byMonthLookup (calculateAggregation mrs2 intentType) k) := by
  have hp : (allExtracted mrs).Perm (allExtracted mrs2) := hperm.flatMap_right _
  rw [calculateAggregation, calculateAggregation, if_pos hty, if_pos hty]
  refine ⟨?_, ?_, ?_, ?_⟩
  · simp only [aggTotalField, aggFold, aggFoldFrom_total]
    rw [(hp.map extValue).sum_eq]
  · simp only [aggCountField, aggFold, aggFoldFrom_count]
    rw [hp.length_eq]
  · intro k
    simp only [byCategoryLookup, aggFold, aggFoldFrom_byCategory]
    rw [hp.countP_eq, ((hp.filter _).map extValue).sum_eq]
  · intro k
    simp only [byMonthLookup, aggFold, aggFoldFrom_byMonth]
    rw [hp.countP_eq, ((hp.filter _).map extValue).sum_eq]

/-- Witness for C2 at a concrete permutation of three map results. -/
theorem calculateAggregation_perm_invariant_witness :
    aggTotalField (calculateAggregation exMapResults "aggregation") =
      aggTotalField (calculateAggregation exMapResultsPermuted "aggregation") ∧
    aggCountField (calculateAggregation exMapResults "aggregation") =
      aggCountField (calculateAggregation exMapResultsPermuted "aggregation") ∧
    (∀ k, byCategoryLookup (calculateAggregation exMapResults "aggregation") k =
      byCategoryLookup (calculateAggregation exMapResultsPermuted "aggregation") k) ∧
    (∀ k, byMonthLookup (calculateAggregation exMapResults "aggregation") k =
      byMonthLookup (calculateAggregation exMapResultsPermuted "aggregation") k) :=
  calculateAggregation_perm_invariant exMapResults exMapResultsPermuted
    "aggregation" (Or.inl rfl) (by decide)

/-! ## Claim C8 -/

/-- Claim C8: when the fetch step returns zero items, process_query marks
the job completed (not failed), stores the canned empty-folder response with
an empty sources list and context_count 0, and creates no batches (the
batch counter keeps its initial value). -/
theorem processQuery_empty_folder (job0 : JobState) (intent : IntentData)
    (sqrtFn : ℚ → ℚ) (qEmb : List ℚ) (outcomes : ℕ → Except String MapResult)
    (reduceResponse : Except String String) :
    (processQuery job0 [] intent sqrtFn qEmb outcomes reduceResponse).status =
      "completed" ∧
    (processQuery job0 [] intent sqrtFn qEmb outcomes reduceResponse).result =
      some { response := emptyFolderResponse, sources := [], contextCount := 0 } ∧
    (processQuery job0 [] intent sqrtFn qEmb outcomes reduceResponse).totalBatches =
      job0.totalBatches := by
  refine ⟨?_, ?_, ?_⟩ <;> simp [processQuery]

/-! ## Lemmas about the map phase -/

/-- The batch-processing fold does not touch total_batches. -/
theorem mapPhaseGo_totalBatches (total : ℕ) (oc : ℕ → Except String MapResult) :
    ∀ (bs : List (List ItemData)) (idx : ℕ) (job : JobState),
    (mapPhaseGo total oc idx bs job).1.totalBatches = job.totalBatches := by
  intro bs
  induction bs with
  | nil => intro idx job; rfl
  | cons b bs ih =>
    intro idx job
    cases hoc : oc idx with
    | ok r => simp [mapPhaseGo, hoc, ih]
    | error e => simp [mapPhaseGo, hoc, ih]

/-- The batch-processing fold adds one failure per failed outcome. -/
theorem mapPhaseGo_failedBatches (total : ℕ) (oc : ℕ → Except String MapResult) :
    ∀ (bs : List (List ItemData)) (idx : ℕ) (job : JobState),
    (mapPhaseGo total oc idx bs job).1.failedBatches =
      job.failedBatches + countFailures oc idx bs.length := by
  intro bs
  induction bs with
  | nil => intro idx job; simp [mapPhaseGo, countFailures]
  | cons b bs ih =>
    intro idx job
    cases hoc : oc idx with
    | ok r =>
      simp [mapPhaseGo, hoc, ih, countFailures, outcomeOk]
    | error e =>
      simp [mapPhaseGo, hoc, ih, countFailures, outcomeOk]
      omega

/-- At most every outcome can fail. -/
theorem countFailures_le (oc : ℕ → Except String MapResult) :
    ∀ (n idx : ℕ), countFailures oc idx n ≤ n := by
  intro n
  induction n with
  | zero => intro idx; simp [countFailures]
  | succ n ih =>
    intro idx
    have hle := ih (idx + 1)
    cases h : outcomeOk (oc idx) <;> simp [countFailures, h] <;> omega

/-- When every outcome in the range fails, the failure count is the range
length. -/
theorem countFailures_all_fail (oc : ℕ → Except String MapResult) :
    ∀ (n idx : ℕ), (∀ i, i < n → outcomeOk (oc (idx + i)) = false) →
    countFailures oc idx n = n := by
  intro n
  induction n with
  | zero => intro idx _; rfl
  | succ n ih =>
    intro idx h
    have h0 : outcomeOk (oc idx) = false := by
      have := h 0 (Nat.succ_pos n)
      simpa using this
    have hrest : ∀ i, i < n → outcomeOk (oc (idx + 1 + i)) = false := by
      intro i hi
      have := h (i + 1) (by omega)
      have harith : idx + (i + 1) = idx + 1 + i := by omega
      rwa [harith] at this
    simp only [countFailures, h0, Bool.false_eq_true, if_false]
    rw [ih (idx + 1) hrest]
    omega

/-- When some outcome in the range succeeds, the failure count is strictly
below the range length. -/
theorem countFailures_lt_of_ok (oc : ℕ → Except String MapResult) :
    ∀ (n idx i : ℕ), i < n → outcomeOk (oc (idx + i)) = true →
    countFailures oc idx n < n := by
  intro n
  induction n with
  | zero => intro idx i hi _; omega
  | succ n ih =>
    intro idx i hi hok
    cases i with
    | zero =>
      have h0 : outcomeOk (oc idx) = true := by simpa using hok
      simp only [countFailures, h0, if_true]
      have := countFailures_le oc n (idx + 1)
      omega
    | succ i =>
      have harith : idx + (i + 1) = idx + 1 + i := by omega
      have hlt := ih (idx + 1) i (by omega) (by rwa [harith] at hok)
      cases h : outcomeOk (oc idx) <;> simp [countFailures, h] <;> omega

/-- The map phase raises when the failure counter reaches the batch total. -/
theorem mapPhase_error_of_all (job : JobState) (batches : List (List ItemData))
    (oc : ℕ → Except String MapResult)
    (h : job.failedBatches + countFailures oc 0 batches.length = job.totalBatches) :
    mapPhase job batches oc = .error "All batches failed to process" := by
  simp only [mapPhase]
  rw [if_pos]
  rw [mapPhaseGo_failedBatches, mapPhaseGo_totalBatches]
  exact h

/-- The map phase returns its processed state when the failure counter stays
below the batch total. -/
theorem mapPhase_ok_of_some (job : JobState) (batches : List (List ItemData))
    (oc : ℕ → Except String MapResult)
    (h : job.failedBatches + countFailures oc 0 batches.length ≠ job.totalBatches) :
    mapPhase job batches oc = .ok (mapPhaseGo job.totalBatches oc 0 batches job) := by
  simp only [mapPhase]
  rw [if_neg]
  rw [mapPhaseGo_failedBatches, mapPhaseGo_totalBatches]
  exact h

/-! ## Claim C3 -/

/-- Claim C3: for a job with fresh counters and a non-empty fetched item
set, about the batches built from the (possibly filtered) items: if every
map batch's final attempt errors, process_query ends with job status
"failed"; if at least one batch succeeds and no exception occurs outside the
map phase (the reduce call returns), the job ends "completed" even when some
batches failed. -/
theorem processQuery_map_failure_policy (job0 : JobState)
    (items : List ItemData) (intent : IntentData) (sqrtFn : ℚ → ℚ)
    (qEmb : List ℚ) (outcomes : ℕ → Except String MapResult)
    (reduceResponse : Except String String)
    (h0 : job0.failedBatches = 0)
    (hne : items ≠ []) :
    ((∀ i, i < (createSmartBatches (filteredItemsOf intent sqrtFn qEmb items)).length →
        outcomeOk (outcomes i) = false) →
      (processQuery job0 items intent sqrtFn qEmb outcomes
        reduceResponse).status = "failed") ∧
    ((∃ i, i < (createSmartBatches (filteredItemsOf intent sqrtFn qEmb items)).length ∧
        outcomeOk (outcomes i) = true) →
      (∀ e, reduceResponse ≠ .error e) →
      (processQuery job0 items intent sqrtFn qEmb outcomes
        reduceResponse).status = "completed") := by
  have hemp : items.isEmpty = false := by
    cases items with
    | nil => exact absurd rfl hne
    | cons a l => rfl
  constructor
  · intro hall
    have hcf : countFailures outcomes 0
        (createSmartBatches (filteredItemsOf intent sqrtFn qEmb items)).length =
        (createSmartBatches (filteredItemsOf intent sqrtFn qEmb items)).length :=
      countFailures_all_fail outcomes _ 0 (fun i hi => by simpa using hall i hi)
    simp only [processQuery, hemp, Bool.false_eq_true, if_false]
    rw [mapPhase_error_of_all]
    · simp [failJob]
    · simp [h0, hcf]
  · intro hex hred
    obtain ⟨i, hi, hok⟩ := hex
    have hcf : countFailures outcomes 0
        (createSmartBatches (filteredItemsOf intent sqrtFn qEmb items)).length <
        (createSmartBatches (filteredItemsOf intent sqrtFn qEmb items)).length :=
      countFailures_lt_of_ok outcomes _ 0 i hi (by simpa using hok)
    cases hrr : reduceResponse with
    | error e => exact absurd hrr (hred e)
    | ok s =>
      simp only [processQuery, hemp, Bool.false_eq_true, if_false]
      rw [mapPhase_ok_of_some _ _ _ (by simp only [h0]; simp; omega)]

/-- Witness for C3 at a one-item corpus without a filter: an all-failing
outcome function yields a failed job, an all-succeeding one a completed
job. -/
theorem processQuery_map_failure_policy_witness :
    (processQuery initialJobState exPipelineItems exPipelineIntent
      (fun x => x) [] (fun _ => .error "boom") (.ok "answer")).status =
      "failed" ∧
    (processQuery initialJobState exPipelineItems exPipelineIntent
      (fun x => x) [] (fun _ => .ok exOkMapResult) (.ok "answer")).status =
      "completed" :=
  ⟨(processQuery_map_failure_policy initialJobState exPipelineItems
      exPipelineIntent (fun x => x) [] (fun _ => .error "boom") (.ok "answer")
      rfl (by simp [exPipelineItems])).1
      (fun i _ => rfl),
   (processQuery_map_failure_policy initialJobState exPipelineItems
      exPipelineIntent (fun x => x) [] (fun _ => .ok exOkMapResult)
      (.ok "answer") rfl (by simp [exPipelineItems])).2
      ⟨0, by
        constructor
        · norm_num [filteredItemsOf, hasTruthySemanticFilter, exPipelineIntent,
            createSmartBatches, createSmartBatchesGo, exPipelineItems,
            chunkCount, exChunks, TARGET_CHUNKS_PER_BATCH]
        · rfl⟩
      (fun e h => by simp at h)⟩

/-! ## Claim C7 -/

/-- Counterexample to C7 as stated: scores are normalized by a running
maximum that starts at 0.0, so when every semantic score is negative the
normalized semantic scores collapse to 0 and the hybrid order falls back to
the original order instead of the semantic descending order.  With two
candidates scoring -1/2 and -1/4 and bm25_weight = 0, the hybrid ranking
keeps the original order while the semantic ranking swaps it. -/
theorem hybridRanking_claim_counterexample :
    applyHybridThenSort (fun x => x) "hello" exNegCandidates (7/10) 0 ≠
      stableSortDesc (fun r => r.semanticScore) exNegCandidates := by
  have htok : (tokenize "hello").isEmpty = false := by decide
  have hs1 : exNegR1.semanticScore = -1/2 := rfl
  have hs2 : exNegR2.semanticScore = -1/4 := rfl
  have hms : maxSemanticScore exNegCandidates = 0 := by
    show max (max 0 exNegR1.semanticScore) exNegR2.semanticScore = 0
    rw [hs1, hs2]
    norm_num [max_def]
  have hmb : maxBm25Score (fun x => x) "hello" exNegCandidates = 0 := by decide
  have hh : ∀ r, hybridScore (fun x => x) "hello" exNegCandidates (7/10) 0 r = 0 := by
    intro r
    norm_num [hybridScore, hms, hmb]
  intro heq
  have e1 : applyHybridThenSort (fun x => x) "hello" exNegCandidates (7/10) 0 =
      [exNegR1, exNegR2] := by
    simp only [applyHybridThenSort, htok, Bool.false_eq_true, if_false]
    show stableSortDesc
      (hybridScore (fun x => x) "hello" exNegCandidates (7/10) 0)
      [exNegR1, exNegR2] = [exNegR1, exNegR2]
    simp only [stableSortDesc, insertDesc, hh]
    norm_num
  have e2 : stableSortDesc (fun r => r.semanticScore) exNegCandidates =
      [exNegR2, exNegR1] := by
    show stableSortDesc (fun r => r.semanticScore) [exNegR1, exNegR2] =
      [exNegR2, exNegR1]
    simp only [stableSortDesc, insertDesc, hs1, hs2]
    norm_num
  rw [e1, e2] at heq
  have h12 : exNegR1.resultId = exNegR2.resultId := by
    rw [List.cons.injEq] at heq
    rw [heq.1]
  simp [exNegR1, exNegR2] at h12

/-- Claim C7 amended: for a non-empty candidate set and a query with at
least one token, and provided the surviving weight is positive and the
corresponding maximum raw score is positive, the degenerate-weight hybrid
order equals the corresponding pure ranking: with bm25_weight = 0 the stable
descending semantic order, with semantic_weight = 0 the stable descending
BM25 order (ties broken by original order on both sides, which use the same
stable sort). -/
theorem hybridRanking_degenerate_weights (logFn : ℚ → ℚ) (queryText : String)
    (results : List SearchResult) (hq : (tokenize queryText).isEmpty = false)
    (hres : results ≠ []) :
    (∀ ws : ℚ, 0 < ws → 0 < maxSemanticScore results →
      applyHybridThenSort logFn queryText results ws 0 =
        stableSortDesc (fun r => r.semanticScore) results) ∧
    (∀ wb : ℚ, 0 < wb → 0 < maxBm25Score logFn queryText results →
      applyHybridThenSort logFn queryText results 0 wb =
        stableSortDesc (bm25ScoreOf logFn queryText results) results) := by
  constructor
  · intro ws hws hms
    simp only [applyHybridThenSort, hq, Bool.false_eq_true, if_false]
    apply stableSortDesc_congr
    intro x y
    simp only [hybridScore, if_pos hms, zero_mul, add_zero]
    rw [mul_le_mul_left hws, div_le_div_iff_of_pos_right hms]
  · intro wb hwb hmb
    simp only [applyHybridThenSort, hq, Bool.false_eq_true, if_false]
    apply stableSortDesc_congr
    intro x y
    simp only [hybridScore, if_pos hmb, zero_mul, zero_add]
    rw [mul_le_mul_left hwb, div_le_div_iff_of_pos_right hmb]

/-- Witness for C7 amended at two concrete candidates with positive
semantic scores, the first containing the query term. -/
theorem hybridRanking_degenerate_weights_witness :
    applyHybridThenSort (fun x => x) "hello" exPosCandidates (7/10) 0 =
      stableSortDesc (fun r => r.semanticScore) exPosCandidates ∧
    applyHybridThenSort (fun x => x) "hello" exPosCandidates 0 (3/10) =
      stableSortDesc (bm25ScoreOf (fun x => x) "hello" exPosCandidates)
        exPosCandidates := by
  have hs1 : exPosR1.semanticScore = 1/2 := rfl
  have hs2 : exPosR2.semanticScore = 1/4 := rfl
  have hms : 0 < maxSemanticScore exPosCandidates := by
    show 0 < max (max 0 exPosR1.semanticScore) exPosR2.semanticScore
    rw [hs1, hs2]
    norm_num [max_def]
  have hd1 : docTerms exPosR1 = ["hello", "world"] := by decide
  have htokq : tokenize "hello" = ["hello"] := by decide
  have havg : avgDocLength exPosCandidates = 2 := by
    show (((exPosCandidates.map
        (fun r => ((docTerms r).length : ℚ))).sum) / (exPosCandidates.length : ℚ)) = 2
    show (((docTerms exPosR1).length : ℚ) + (((docTerms exPosR2).length : ℚ) + 0)) /
      ((2 : ℕ) : ℚ) = 2
    rw [hd1, show docTerms exPosR2 = ["other", "things"] from by decide]
    norm_num
  have hdfo : termDocFreqOrOne exPosCandidates "hello" = 1 := by decide
  have hb1 : bm25ScoreOf (fun x => x) "hello" exPosCandidates exPosR1 = 1 := by
    show bm25Score (fun x => x) (tokenize "hello") (docTerms exPosR1)
      (((docTerms exPosR1).length : ℕ) : ℚ) (avgDocLength exPosCandidates)
      exPosCandidates.length (termDocFreqOrOne exPosCandidates) = 1
    rw [htokq, hd1, havg]
    have hcont : (["hello", "world"].contains "hello") = true := by decide
    have hcnt : (["hello", "world"].count "hello") = 1 := by decide
    have hlen : exPosCandidates.length = 2 := rfl
    simp only [bm25Score, List.foldl_cons, List.foldl_nil, hcont, if_true,
      hcnt, hdfo, hlen]
    norm_num [bm25K1, bm25B]
  have hb2 : bm25ScoreOf (fun x => x) "hello" exPosCandidates exPosR2 = 0 := by
    decide
  have hmb : 0 < maxBm25Score (fun x => x) "hello" exPosCandidates := by
    show 0 < max (max 0 (bm25ScoreOf (fun x => x) "hello" exPosCandidates exPosR1))
      (bm25ScoreOf (fun x => x) "hello" exPosCandidates exPosR2)
    rw [hb1, hb2]
    norm_num [max_def]
  have hbase := hybridRanking_degenerate_weights (fun x => x) "hello"
    exPosCandidates (by decide) (by simp [exPosCandidates])
  exact ⟨hbase.1 (7/10) (by norm_num) hms, hbase.2 (3/10) (by norm_num) hmb⟩

/-! ## Claim C9 -/

/-- Claim C9: semantic_search scores one entry per stored chunk vector
rather than per item — the scored list has exactly one entry, in row order,
for every row whose embedding is present and non-empty, so an item with k
embedded chunks appears k times, while rows whose embedding is absent or
empty are never scored; concretely, in hybrid mode item 1's two chunks take
two of the top-5 slots and item 3's embedding-less rows never appear. -/
theorem semanticSearch_per_chunk :
    (∀ (sqrtFn : ℚ → ℚ) (qe : List ℚ) (rows : List VectorRow),
      (scoredResults sqrtFn qe rows).map (fun r => r.resultId) =
        (rows.filter keepRow).map (fun row => row.itemId)) ∧
    (semanticSearchRank (fun x => x) (fun x => x) "hi" [1] exVectorRows 10 true
        (7/10) (3/10)).map (fun r => r.resultId) = [1, 1, 2] := by
  constructor
  · intro sqrtFn qe rows
    induction rows with
    | nil => rfl
    | cons row rows ih =>
      cases he : row.embedding with
      | none =>
        simpa [scoredResults, List.filterMap_cons, List.filter_cons, keepRow, he]
          using ih
      | some e =>
        by_cases hee : e = []
        · simpa [scoredResults, List.filterMap_cons, List.filter_cons, keepRow,
            he, hee] using ih
        · simpa [scoredResults, List.filterMap_cons, List.filter_cons, keepRow,
            he, hee] using ih
  · have htok : (tokenize "hi").isEmpty = true := by decide
    simp only [semanticSearchRank, applyHybridThenSort, htok, if_true]
    norm_num [scoredResults, exVectorRows, cosineSimilarity, stableSortDesc,
      insertDesc, exRowNoEmb, exRowItem2, exRowItem1a, exRowEmptyEmb,
      exRowItem1b]

end Synapse
